import Mathlib

/-!
Shallow embedding of the WSG student-portal backend (a single Express
server file).  The external record store (Airtable) is modelled as an
abstract `Store` capability: the `Students` table is a list of raw
records and is queried by the exact filter string the server
interpolates into its `filterByFormula`; the `Mentors` and
`Student-Mentor Meetings` tables are find-by-id functions.  Times are
naturals (milliseconds since the epoch); JSON bodies are modelled with
an explicit `JVal` value type so that JavaScript null/undefined and
truthiness behaviour is preserved.
-/

set_option autoImplicit false

namespace WsgPortal

/-- JSON-ish field values, as stored in record fields and request
bodies.  `undefined` models a JavaScript `undefined` (an absent property
read), `arr` models a linked-record id array. -/
inductive JVal where
  | null
  | undefined
  | str (s : String)
  | num (n : Int)
  | arr (ids : List String)
deriving Repr, DecidableEq

/-- JavaScript truthiness for a `JVal`: `null`, `undefined`, the empty
string and `0` are falsy; arrays are always truthy. -/
def JVal.truthy : JVal → Bool
  | .null => false
  | .undefined => false
  | .str s => !(s == "")
  | .num n => !(n == 0)
  | .arr _ => true

/-- JavaScript `a || b` on field values: returns `a` when truthy,
otherwise `b`. -/
def jor (a b : JVal) : JVal :=
  if a.truthy then a else b

/-- Property read on a record-fields object: `some v` when the key is
present, `none` when absent (JavaScript `undefined`). -/
def getField (fields : List (String × JVal)) (key : String) : Option JVal :=
  (fields.find? (fun kv => kv.1 == key)).map (fun kv => kv.2)

/-- `record.get(key)` / `obj[key]`, with an absent key read as
`undefined`. -/
def getFieldJ (fields : List (String × JVal)) (key : String) : JVal :=
  (getField fields key).getD .undefined

/-- Reading a link field (`student['Recruitment Manager']` etc.)
followed by the guard `if (ids && ids.length > 0)`: a present id array
is returned as is, anything else behaves as an empty id list. -/
def linkIds (fields : List (String × JVal)) (key : String) : List String :=
  match getField fields key with
  | some (.arr ids) => ids
  | _ => []

/-- A raw `Students` record as returned by the record store. -/
structure StudentRec where
  id : String
  fields : List (String × JVal)
deriving Repr, DecidableEq

/-- A raw `Mentors` record. -/
structure MentorRaw where
  id : String
  fields : List (String × JVal)
deriving Repr, DecidableEq

/-- A raw `Student-Mentor Meetings` record. -/
structure MeetingRaw where
  id : String
  fields : List (String × JVal)
deriving Repr, DecidableEq

/-- The external record store capability: the students table (queried
by an email filter), and find-by-id lookups for mentors and meetings.
A `none` result of a find-by-id models both a missing record and an
upstream error (the server catches the error and returns `null`). -/
structure Store where
  students : List StudentRec
  mentors : String → Option MentorRaw
  meetingsTbl : String → Option MeetingRaw

/-- The Airtable field name `Student's Email` (the apostrophe is
character 39). -/
def emailFieldKey : String :=
  "Student" ++ String.singleton (Char.ofNat 39) ++ "s Email"

/-- `base('Students').select({filterByFormula: ..., maxRecords: 1})
.firstPage()`: the server interpolates an email string into the
formula `{Student's Email} = '<email>'`; the store returns the first
record whose email field equals that literal string. -/
def findStudent (store : Store) (email : String) : Option StudentRec :=
  (store.students.filter
    (fun r => getField r.fields emailFieldKey == some (.str email))).head?

/-- Strip leading and trailing whitespace from a character list
(JavaScript `trim`). -/
def trimChars (l : List Char) : List Char :=
  ((l.dropWhile Char.isWhitespace).reverse.dropWhile Char.isWhitespace).reverse

/-- Email normalisation used by the handlers:
`email.toLowerCase().trim()` (lowercase each character, then trim
surrounding whitespace). -/
def normalizeEmail (email : String) : String :=
  ⟨trimChars (email.data.map Char.toLower)⟩

/-- Result of `getMentorById`: `{ id, name: record.get('Name'),
...record.fields }`. -/
structure Mentor where
  id : String
  name : JVal
  fields : List (String × JVal)
deriving Repr, DecidableEq

/-- `getMentorById`: find the mentor record; on error or missing
record return `null` (here `none`). -/
def getMentorById (store : Store) (mentorId : String) : Option Mentor :=
  (store.mentors mentorId).map
    (fun r => { id := r.id, name := getFieldJ r.fields "Name", fields := r.fields })

/-- Result of `getMeetingById`: the meeting fields plus an optional
hydrated `mentorAttended` (first id of `Mentors Attended`, omitted
when it does not resolve). -/
structure Meeting where
  id : String
  fields : List (String × JVal)
  mentorAttended : Option Mentor
deriving Repr, DecidableEq

/-- `getMeetingById`: find the meeting record, then hydrate the first
attending mentor; a mentor that does not resolve leaves the field
absent; a missing meeting or store error yields `null` (`none`). -/
def getMeetingById (store : Store) (meetingId : String) : Option Meeting :=
  match store.meetingsTbl meetingId with
  | none => none
  | some r =>
    let mentorIds := linkIds r.fields "Mentors Attended"
    let mentorAttended :=
      match mentorIds with
      | [] => none
      | m0 :: _ => getMentorById store m0
    some { id := r.id, fields := r.fields, mentorAttended := mentorAttended }

/-- The hydrated student composite returned to clients. -/
structure HydratedStudent where
  id : String
  fields : List (String × JVal)
  recruitmentManager : Option Mentor
  leadMentor : Option Mentor
  meetings : List Meeting
deriving Repr, DecidableEq

/-- `hydrateStudent`: resolve `Recruitment Manager[0]` and
`Lead Mentor[0]` (omitting fields that do not resolve), and resolve
every id in `Student-Mentor Meetings` via `Promise.all` (which keeps
the original id order) followed by `filter(m => m !== null)`. -/
def hydrateStudent (store : Store) (r : StudentRec) : HydratedStudent :=
  let rmIds := linkIds r.fields "Recruitment Manager"
  let recruitmentManager :=
    match rmIds with
    | [] => none
    | m0 :: _ => getMentorById store m0
  let lmIds := linkIds r.fields "Lead Mentor"
  let leadMentor :=
    match lmIds with
    | [] => none
    | m0 :: _ => getMentorById store m0
  let meetingIds := linkIds r.fields "Student-Mentor Meetings"
  let meetings :=
    if meetingIds.isEmpty then []
    else (meetingIds.map (getMeetingById store)).filterMap id
  { id := r.id, fields := r.fields, recruitmentManager := recruitmentManager,
    leadMentor := leadMentor, meetings := meetings }

/-- `getStudentByEmail`: query the students table with the email
string exactly as given (no normalisation happens here), then
hydrate. -/
def getStudentByEmail (store : Store) (email : String) : Option HydratedStudent :=
  (findStudent store email).map (hydrateStudent store)

/-- Result of the `GET /student/:email` handler. -/
inductive StudentFetchResult where
  | notFound
  | ok (student : HydratedStudent)
deriving Repr, DecidableEq

/-- The `GET /student/:email` handler: passes the raw path parameter
to `getStudentByEmail`. -/
def fetchStudent (store : Store) (email : String) : StudentFetchResult :=
  match getStudentByEmail store email with
  | none => .notFound
  | some s => .ok s

/-- A magic-link token record: `{ email, expiresAt }`. -/
structure TokenData where
  email : String
  expiresAt : Nat
deriving Repr, DecidableEq

/-- The in-memory `magicLinkTokens` map, token value to token data. -/
abbrev TokenStore : Type := List (String × TokenData)

/-- `magicLinkTokens.get(token)`. -/
def storeGet (tokens : TokenStore) (tok : String) : Option TokenData :=
  (List.find? (fun kv => kv.1 == tok) tokens).map (fun kv => kv.2)

/-- `magicLinkTokens.set(token, data)`: overwrite an existing binding
or append a new one. -/
def storeSet (tokens : TokenStore) (tok : String) (td : TokenData) : TokenStore :=
  if (List.find? (fun kv => kv.1 == tok) tokens).isSome then
    List.map (fun kv => if kv.1 == tok then (tok, td) else kv) tokens
  else
    tokens ++ [(tok, td)]

/-- `magicLinkTokens.delete(token)`. -/
def storeDelete (tokens : TokenStore) (tok : String) : TokenStore :=
  List.filter (fun kv => !(kv.1 == tok)) tokens

/-- `SESSION_DURATION_MS = 6 * 30 * 24 * 60 * 60 * 1000`: six months,
counted as six 30-day months, in milliseconds. -/
def SESSION_DURATION_MS : Nat := 6 * 30 * 24 * 60 * 60 * 1000

/-- The magic-link token TTL: `15 * 60 * 1000` milliseconds. -/
def MAGIC_LINK_TTL_MS : Nat := 15 * 60 * 1000

/-- A minted session: `{ token, expiresAt }`. -/
structure Session where
  token : String
  expiresAt : Nat
deriving Repr, DecidableEq

/-- The minimal student projection returned with a session:
`{ id, email, name: get('Name') || get('Student ID'),
firstName: get('Preferred First Name') }`. -/
structure StudentOut where
  id : String
  email : JVal
  name : JVal
  firstName : JVal
deriving Repr, DecidableEq

/-- Build the student projection from a raw record. -/
def studentOut (r : StudentRec) : StudentOut :=
  { id := r.id,
    email := getFieldJ r.fields emailFieldKey,
    name := jor (getFieldJ r.fields "Name") (getFieldJ r.fields "Student ID"),
    firstName := getFieldJ r.fields "Preferred First Name" }

/-- Result of the `POST /api/auth/magic-link` handler.  `ok` carries
the issued token, the stored (normalised) email and the stored expiry
instant; the HTTP response embeds the token in the magic-link URL. -/
inductive MagicLinkResult where
  | badRequest
  | notFound
  | ok (token : String) (storedEmail : String) (expiresAt : Nat)
deriving Repr, DecidableEq

/-- The `POST /api/auth/magic-link` handler.  `now` is `Date.now()` at
handling time and `freshToken` the `uuidv4()` value.  The body email is
`none` when absent; an absent or empty email is falsy and yields 400.
The email is lowercased and trimmed before the student lookup, and the
token is stored bound to the normalised email with
`expiresAt = now + 15 minutes`. -/
def requestMagicLink (now : Nat) (freshToken : String) (store : Store)
    (tokens : TokenStore) (emailBody : Option String) :
    MagicLinkResult × TokenStore :=
  let email := emailBody.getD ""
  if email = "" then (.badRequest, tokens)
  else
    let normalizedEmail := normalizeEmail email
    match findStudent store normalizedEmail with
    | none => (.notFound, tokens)
    | some _ =>
      let expiresAt := now + MAGIC_LINK_TTL_MS
      (.ok freshToken normalizedEmail expiresAt,
        storeSet tokens freshToken ⟨normalizedEmail, expiresAt⟩)

/-- Result of the `POST /api/auth/verify` handler. -/
inductive VerifyResult where
  | badRequest
  | unauthorized
  | notFound
  | ok (session : Session) (student : StudentOut)
deriving Repr, DecidableEq

/-- The HTTP status the verify handler sends for each result. -/
def verifyStatus : VerifyResult → Nat
  | .badRequest => 400
  | .unauthorized => 401
  | .notFound => 404
  | .ok _ _ => 200

/-- The `POST /api/auth/verify` handler.  `now` is `Date.now()`,
`freshSession` the `uuidv4()` session token.  An absent or empty body
token is falsy and yields 400.  An unknown token yields 401; an
expired one (`now > expiresAt`, strictly) is deleted and yields 401;
otherwise the token is deleted first (one-time use) and only then is
the bound email re-resolved: a missing student yields 404, and on
success a session expiring at `now + SESSION_DURATION_MS` is minted. -/
def verifyToken (now : Nat) (freshSession : String) (store : Store)
    (tokens : TokenStore) (tokenBody : Option String) :
    VerifyResult × TokenStore :=
  let tok := tokenBody.getD ""
  if tok = "" then (.badRequest, tokens)
  else
    match storeGet tokens tok with
    | none => (.unauthorized, tokens)
    | some td =>
      if td.expiresAt < now then (.unauthorized, storeDelete tokens tok)
      else
        let tokens2 := storeDelete tokens tok
        match findStudent store td.email with
        | none => (.notFound, tokens2)
        | some st =>
          (.ok ⟨freshSession, now + SESSION_DURATION_MS⟩ (studentOut st), tokens2)

/-- Result of the `POST /api/auth/dev-login` handler. -/
inductive DevLoginResult where
  | forbidden
  | notFound
  | ok (session : Session) (student : StudentOut)
deriving Repr, DecidableEq

/-- JavaScript `a || b` for strings with absent modelled as `""`
(both `undefined` and the empty string are falsy). -/
def strOr (a b : String) : String :=
  if a = "" then b else a

/-- The `POST /api/auth/dev-login` handler.  Unless `DEV_MODE` is the
exact string `"true"` the handler returns 403 before touching anything
else.  Otherwise the email defaults through
`email || DEV_TEST_EMAIL || 'test@example.com'`, is normalised, and a
session is minted directly for the matching student. -/
def devLogin (devMode : Option String) (devTestEmail : Option String)
    (now : Nat) (freshSession : String) (store : Store)
    (emailBody : Option String) : DevLoginResult :=
  if devMode ≠ some "true" then .forbidden
  else
    let testEmail := strOr (emailBody.getD "") (strOr (devTestEmail.getD "") "test@example.com")
    let normalizedEmail := normalizeEmail testEmail
    match findStudent store normalizedEmail with
    | none => .notFound
    | some st => .ok ⟨freshSession, now + SESSION_DURATION_MS⟩ (studentOut st)

/-- The allow-list of the `POST /api/student/update` handler. -/
def allowedFields : List String :=
  ["Current University / Institution",
   "Degree / Major",
   "Graduation Year",
   "GPA",
   "Current Clubs / Extracurriculars",
   "CV/Resume",
   "Short-Term Goals (1-3 Years)",
   "What countries do you own a passport?"]

/-- The `fieldsToUpdate` loop: for each allow-listed field present in
the updates object (`field in updates`), keep its value unless it is
`null` or `undefined`. -/
def filterUpdates (updates : List (String × JVal)) : List (String × JVal) :=
  allowedFields.filterMap
    (fun field =>
      match getField updates field with
      | some v => if v ≠ JVal.null ∧ v ≠ JVal.undefined then some (field, v) else none
      | none => none)

/-- Set one field of a record-fields object (overwrite or append). -/
def setField (fields : List (String × JVal)) (key : String) (v : JVal) :
    List (String × JVal) :=
  if (fields.find? (fun kv => kv.1 == key)).isSome then
    fields.map (fun kv => if kv.1 == key then (key, v) else kv)
  else
    fields ++ [(key, v)]

/-- `base('Students').update(id, fieldsToUpdate)` merges the patch
into the existing record fields. -/
def applyUpdates (fields : List (String × JVal))
    (patch : List (String × JVal)) : List (String × JVal) :=
  patch.foldl (fun acc kv => setField acc kv.1 kv.2) fields

/-- Result of the `POST /api/student/update` handler.  `ok` carries
the patch actually sent to the record store and the re-hydrated
student returned in the response. -/
inductive UpdateResult where
  | badRequest
  | notFound
  | ok (patch : List (String × JVal)) (student : HydratedStudent)
deriving Repr, DecidableEq

/-- The `POST /api/student/update` handler: 400 on a falsy email or a
missing updates object; the email is normalised before the lookup;
the allow-list filtered patch is written to the store and the updated
record is re-hydrated for the response. -/
def updateStudent (store : Store) (emailBody : Option String)
    (updatesBody : Option (List (String × JVal))) : UpdateResult :=
  let email := emailBody.getD ""
  if email = "" then .badRequest
  else
    match updatesBody with
    | none => .badRequest
    | some updates =>
      let normalizedEmail := normalizeEmail email
      match findStudent store normalizedEmail with
      | none => .notFound
      | some r =>
        let fieldsToUpdate := filterUpdates updates
        let updatedRecord : StudentRec :=
          { id := r.id, fields := applyUpdates r.fields fieldsToUpdate }
        .ok fieldsToUpdate (hydrateStudent store updatedRecord)

/-- Sample student record used in concrete evaluations. -/
def janeRec : StudentRec :=
  { id := "recJane",
    fields := [(emailFieldKey, .str "jane@example.com"),
               ("Name", .str "Jane Doe"),
               ("Preferred First Name", .str "Jane")] }

/-- Sample mentor record. -/
def aliceRaw : MentorRaw :=
  { id := "mA", fields := [("Name", .str "Alice")] }

/-- Sample meeting record linked to mentor `mA`. -/
def meetingRaw1 : MeetingRaw :=
  { id := "mt1", fields := [("Mentors Attended", .arr ["mA"])] }

/-- Sample meeting record with no attending mentors. -/
def meetingRaw2 : MeetingRaw :=
  { id := "mt2", fields := [] }

/-- Sample store: one student, one mentor, two meetings. -/
def sampleStore : Store :=
  { students := [janeRec],
    mentors := fun i => if i == "mA" then some aliceRaw else none,
    meetingsTbl := fun i =>
      if i == "mt1" then some meetingRaw1
      else if i == "mt2" then some meetingRaw2
      else none }

/-- A student record with linked mentors and meetings, some of whose
links do not resolve in `sampleStore`. -/
def linkedRec : StudentRec :=
  { id := "recLinked",
    fields := [("Recruitment Manager", .arr ["mA"]),
               ("Lead Mentor", .arr ["zz"]),
               ("Student-Mentor Meetings", .arr ["mt1", "zz", "mt2"])] }

/-- A student record with five meeting links that all resolve in
`sampleStore`. -/
def fiveMeetingsRec : StudentRec :=
  { id := "recFive",
    fields := [("Student-Mentor Meetings",
                .arr ["mt1", "mt2", "mt1", "mt2", "mt1"])] }

/-- A student record with no link fields at all. -/
def bareRec : StudentRec :=
  { id := "recBare", fields := [] }

/-! ### Helper lemmas -/

theorem filterMap_id_map {α β : Type} (f : α → Option β) (l : List α) :
    (l.map f).filterMap id = l.filterMap f := by
  induction l with
  | nil => rfl
  | cons a l ih => cases h : f a <;> simp [List.filterMap_cons, h, ih]

theorem getField_cons (kv : String × JVal) (rest : List (String × JVal))
    (f : String) :
    getField (kv :: rest) f = if kv.1 = f then some kv.2 else getField rest f := by
  by_cases h : kv.1 = f
  · simp [getField, List.find?_cons, h]
  · simp [getField, List.find?_cons, h]

theorem storeGet_cons (kv : String × TokenData) (rest : TokenStore)
    (tok : String) :
    storeGet (kv :: rest) tok
      = if kv.1 = tok then some kv.2 else storeGet rest tok := by
  by_cases h : kv.1 = tok
  · simp [storeGet, List.find?_cons, h]
  · simp [storeGet, List.find?_cons, h]

theorem storeDelete_cons (kv : String × TokenData) (rest : TokenStore)
    (tok : String) :
    storeDelete (kv :: rest) tok
      = if kv.1 = tok then storeDelete rest tok
        else kv :: storeDelete rest tok := by
  by_cases h : kv.1 = tok
  · simp [storeDelete, List.filter_cons, h]
  · simp [storeDelete, List.filter_cons, h]

theorem storeGet_delete_self (tokens : TokenStore) (tok : String) :
    storeGet (storeDelete tokens tok) tok = none := by
  induction tokens with
  | nil => rfl
  | cons kv rest ih =>
    rw [storeDelete_cons]
    by_cases h : kv.1 = tok
    · rw [if_pos h]
      exact ih
    · rw [if_neg h, storeGet_cons, if_neg h]
      exact ih

theorem storeGet_map_replace (tok : String) (td : TokenData)
    (tokens : TokenStore)
    (hs : (List.find? (fun kv => kv.1 == tok) tokens).isSome) :
    storeGet (tokens.map (fun kv => if kv.1 == tok then (tok, td) else kv)) tok
      = some td := by
  induction tokens with
  | nil => simp at hs
  | cons kv rest ih =>
    rw [List.map_cons]
    by_cases h : kv.1 = tok
    · rw [if_pos (show (kv.1 == tok) = true by simp [h])]
      rw [storeGet_cons, if_pos rfl]
    · have hs2 : (List.find? (fun kv => kv.1 == tok) rest).isSome := by
        simpa [List.find?_cons, h] using hs
      rw [if_neg (show ¬ (kv.1 == tok) = true by simp [h])]
      rw [storeGet_cons, if_neg h]
      exact ih hs2

theorem storeGet_append_self (tok : String) (td : TokenData)
    (tokens : TokenStore)
    (hs : ¬ (List.find? (fun kv => kv.1 == tok) tokens).isSome) :
    storeGet (tokens ++ [(tok, td)]) tok = some td := by
  induction tokens with
  | nil =>
    rw [List.nil_append, storeGet_cons, if_pos rfl]
  | cons kv rest ih =>
    rw [List.cons_append, storeGet_cons]
    by_cases h : kv.1 = tok
    · exact absurd (by simp [List.find?_cons, h]) hs
    · rw [if_neg h]
      exact ih (fun h2 => hs (by simpa [List.find?_cons, h] using h2))

theorem storeGet_set_self (tokens : TokenStore) (tok : String) (td : TokenData) :
    storeGet (storeSet tokens tok td) tok = some td := by
  unfold storeSet
  by_cases hs : (List.find? (fun kv => kv.1 == tok) tokens).isSome
  · rw [if_pos hs]
    exact storeGet_map_replace tok td tokens hs
  · rw [if_neg hs]
    exact storeGet_append_self tok td tokens hs

theorem getField_map_replace (key : String) (v : JVal) (f : String)
    (h : f ≠ key) (fields : List (String × JVal)) :
    getField (fields.map (fun kv => if kv.1 == key then (key, v) else kv)) f
      = getField fields f := by
  induction fields with
  | nil => rfl
  | cons kv rest ih =>
    rw [List.map_cons]
    by_cases hk : kv.1 = key
    · rw [if_pos (show (kv.1 == key) = true by simp [hk])]
      rw [getField_cons, getField_cons, if_neg (Ne.symm h),
        if_neg (show ¬ kv.1 = f by rw [hk]; exact Ne.symm h)]
      exact ih
    · rw [if_neg (show ¬ (kv.1 == key) = true by simp [hk])]
      rw [getField_cons, getField_cons]
      by_cases hf : kv.1 = f
      · rw [if_pos hf, if_pos hf]
      · rw [if_neg hf, if_neg hf]
        exact ih

theorem getField_append_ne (key : String) (v : JVal) (f : String)
    (h : f ≠ key) (fields : List (String × JVal)) :
    getField (fields ++ [(key, v)]) f = getField fields f := by
  induction fields with
  | nil =>
    rw [List.nil_append, getField_cons, if_neg (Ne.symm h)]
  | cons kv rest ih =>
    rw [List.cons_append, getField_cons, getField_cons]
    by_cases hf : kv.1 = f
    · rw [if_pos hf, if_pos hf]
    · rw [if_neg hf, if_neg hf]
      exact ih

theorem getField_setField_ne (fields : List (String × JVal)) (key : String)
    (v : JVal) (f : String) (h : f ≠ key) :
    getField (setField fields key v) f = getField fields f := by
  unfold setField
  by_cases hs : (fields.find? (fun kv => kv.1 == key)).isSome
  · rw [if_pos hs]
    exact getField_map_replace key v f h fields
  · rw [if_neg hs]
    exact getField_append_ne key v f h fields


theorem getField_applyUpdates_not_mem (patch : List (String × JVal))
    (fields : List (String × JVal)) (f : String)
    (h : ∀ kv ∈ patch, kv.1 ≠ f) :
    getField (applyUpdates fields patch) f = getField fields f := by
  induction patch generalizing fields with
  | nil => rfl
  | cons kv rest ih =>
    have hkv : kv.1 ≠ f := h kv (List.mem_cons_self kv rest)
    have hrest : ∀ kv2 ∈ rest, kv2.1 ≠ f :=
      fun kv2 hm => h kv2 (List.mem_cons_of_mem kv hm)
    calc getField (applyUpdates fields (kv :: rest)) f
        = getField (applyUpdates (setField fields kv.1 kv.2) rest) f := rfl
      _ = getField (setField fields kv.1 kv.2) f := ih _ hrest
      _ = getField fields f := getField_setField_ne _ _ _ _ (Ne.symm hkv)

theorem filterUpdates_spec (updates : List (String × JVal))
    (kv : String × JVal) (h : kv ∈ filterUpdates updates) :
    kv.1 ∈ allowedFields ∧ getField updates kv.1 = some kv.2 ∧
      kv.2 ≠ JVal.null ∧ kv.2 ≠ JVal.undefined := by
  unfold filterUpdates at h
  rcases List.mem_filterMap.mp h with ⟨a, ha, hga⟩
  cases hg : getField updates a with
  | none => rw [hg] at hga; cases hga
  | some v =>
    rw [hg] at hga
    dsimp only at hga
    by_cases hv : v ≠ JVal.null ∧ v ≠ JVal.undefined
    · rw [if_pos hv] at hga
      cases hga
      exact ⟨ha, hg, hv.1, hv.2⟩
    · rw [if_neg hv] at hga
      cases hga

theorem filterUpdates_mem_of (updates : List (String × JVal)) (f : String)
    (v : JVal) (hf : f ∈ allowedFields) (hg : getField updates f = some v)
    (h1 : v ≠ JVal.null) (h2 : v ≠ JVal.undefined) :
    (f, v) ∈ filterUpdates updates := by
  unfold filterUpdates
  refine List.mem_filterMap.mpr ⟨f, hf, ?_⟩
  rw [hg]
  dsimp only
  rw [if_pos ⟨h1, h2⟩]

theorem length_filterMap_of_isSome {α β : Type} (f : α → Option β)
    (l : List α) (h : ∀ a ∈ l, (f a).isSome) :
    (l.filterMap f).length = l.length := by
  induction l with
  | nil => rfl
  | cons a l ih =>
    have ha := h a (List.mem_cons_self a l)
    cases hfa : f a with
    | none => rw [hfa] at ha; cases ha
    | some b =>
      simp [List.filterMap_cons, hfa,
        ih (fun x hx => h x (List.mem_cons_of_mem a hx))]


theorem hydrateStudent_recruitmentManager (store : Store) (r : StudentRec) :
    (hydrateStudent store r).recruitmentManager
      = match linkIds r.fields "Recruitment Manager" with
        | [] => none
        | m0 :: _ => getMentorById store m0 := rfl

theorem hydrateStudent_leadMentor (store : Store) (r : StudentRec) :
    (hydrateStudent store r).leadMentor
      = match linkIds r.fields "Lead Mentor" with
        | [] => none
        | m0 :: _ => getMentorById store m0 := rfl

theorem hydrateStudent_meetings_eq (store : Store) (r : StudentRec) :
    (hydrateStudent store r).meetings
      = (linkIds r.fields "Student-Mentor Meetings").filterMap
          (getMeetingById store) := by
  show (if (linkIds r.fields "Student-Mentor Meetings").isEmpty then []
        else ((linkIds r.fields "Student-Mentor Meetings").map
          (getMeetingById store)).filterMap id)
      = (linkIds r.fields "Student-Mentor Meetings").filterMap
          (getMeetingById store)
  cases h : linkIds r.fields "Student-Mentor Meetings" with
  | nil => rfl
  | cons a l =>
    cases hfa : getMeetingById store a <;>
      simp [List.isEmpty_cons, List.filterMap_cons, hfa, filterMap_id_map]

/-! ### Claim theorems -/

/-- C4: hydration is a total function of the record and the store (it
cannot throw), a student with no linked mentors/meetings hydrates to
absent `recruitmentManager`/`leadMentor` fields and an empty `meetings`
list, and a linked mentor or meeting id that does not resolve is simply
omitted from the result (the meetings are exactly the resolvable ones,
no placeholder entries). -/
theorem C4_hydration_null_safe (store : Store) (r : StudentRec) :
    (linkIds r.fields "Recruitment Manager" = [] →
      (hydrateStudent store r).recruitmentManager = none)
    ∧ (linkIds r.fields "Lead Mentor" = [] →
      (hydrateStudent store r).leadMentor = none)
    ∧ (linkIds r.fields "Student-Mentor Meetings" = [] →
      (hydrateStudent store r).meetings = [])
    ∧ (∀ m0 ms, linkIds r.fields "Recruitment Manager" = m0 :: ms →
      getMentorById store m0 = none →
      (hydrateStudent store r).recruitmentManager = none)
    ∧ (∀ m0 ms, linkIds r.fields "Lead Mentor" = m0 :: ms →
      getMentorById store m0 = none →
      (hydrateStudent store r).leadMentor = none)
    ∧ (hydrateStudent store r).meetings
        = (linkIds r.fields "Student-Mentor Meetings").filterMap
            (getMeetingById store) := by
  refine ⟨?_, ?_, ?_, ?_, ?_, hydrateStudent_meetings_eq store r⟩
  · intro h
    rw [hydrateStudent_recruitmentManager, h]
  · intro h
    rw [hydrateStudent_leadMentor, h]
  · intro h
    rw [hydrateStudent_meetings_eq, h]
    rfl
  · intro m0 ms h hm
    rw [hydrateStudent_recruitmentManager, h]
    exact hm
  · intro m0 ms h hm
    rw [hydrateStudent_leadMentor, h]
    exact hm

/-- Witness for C4 on concrete records: a student with no links
hydrates to absent/empty link fields, and a lead-mentor id that does
not resolve is omitted. -/
theorem C4_hydration_null_safe_witness :
    (hydrateStudent sampleStore bareRec).recruitmentManager = none
    ∧ (hydrateStudent sampleStore bareRec).leadMentor = none
    ∧ (hydrateStudent sampleStore bareRec).meetings = []
    ∧ (hydrateStudent sampleStore linkedRec).leadMentor = none :=
  ⟨(C4_hydration_null_safe sampleStore bareRec).1 (by decide),
   (C4_hydration_null_safe sampleStore bareRec).2.1 (by decide),
   (C4_hydration_null_safe sampleStore bareRec).2.2.1 (by decide),
   (C4_hydration_null_safe sampleStore linkedRec).2.2.2.2.1 "zz" []
     (by decide) (by decide)⟩

/-- C5: for a student with a non-empty meeting id sequence, the
hydrated `meetings` are exactly the resolved meetings in the original
id order with unresolvable ids removed (`Promise.all` joins the
concurrent lookups in input order, so completion order is
irrelevant), and when every id resolves the output has one meeting
per id. -/
theorem C5_meetings_preserve_order (store : Store) (r : StudentRec)
    (ids : List String)
    (h : linkIds r.fields "Student-Mentor Meetings" = ids)
    (_hne : ids ≠ []) :
    (hydrateStudent store r).meetings = ids.filterMap (getMeetingById store)
    ∧ ((∀ i ∈ ids, (getMeetingById store i).isSome) →
        (hydrateStudent store r).meetings.length = ids.length) := by
  constructor
  · rw [hydrateStudent_meetings_eq, h]
  · intro hall
    rw [hydrateStudent_meetings_eq, h]
    exact length_filterMap_of_isSome _ ids hall

/-- Witness for C5: hydrating a student with five resolvable meeting
links yields the five resolved meetings in the original order. -/
theorem C5_meetings_preserve_order_witness :
    (hydrateStudent sampleStore fiveMeetingsRec).meetings
      = ["mt1", "mt2", "mt1", "mt2", "mt1"].filterMap
          (getMeetingById sampleStore)
    ∧ (hydrateStudent sampleStore fiveMeetingsRec).meetings.length
      = (["mt1", "mt2", "mt1", "mt2", "mt1"] : List String).length :=
  ⟨(C5_meetings_preserve_order sampleStore fiveMeetingsRec
      ["mt1", "mt2", "mt1", "mt2", "mt1"] (by decide) (by decide)).1,
   (C5_meetings_preserve_order sampleStore fiveMeetingsRec
      ["mt1", "mt2", "mt1", "mt2", "mt1"] (by decide) (by decide)).2
     (by decide)⟩

/-- C6: with the development flag unset, every dev-login call returns
`Forbidden`: the result is the same for every payload, clock, fresh
session token and record-store state, so no session is minted and no
student lookup can influence the outcome. -/
theorem C6_devLogin_forbidden_when_flag_unset (devMode : Option String)
    (h : devMode = none) :
    ∀ (devTestEmail : Option String) (now : Nat) (freshSession : String)
      (store : Store) (emailBody : Option String),
      devLogin devMode devTestEmail now freshSession store emailBody
        = .forbidden := by
  intro dte now fresh store eb
  subst h
  unfold devLogin
  rw [if_pos (show (none : Option String) ≠ some "true" by simp)]

/-- Witness for C6 at a concrete call. -/
theorem C6_devLogin_forbidden_when_flag_unset_witness :
    devLogin none (some "other@example.com") 5 "s" sampleStore (some "x")
      = .forbidden :=
  C6_devLogin_forbidden_when_flag_unset none rfl (some "other@example.com")
    5 "s" sampleStore (some "x")


theorem verifyToken_ok_inv (now : Nat) (freshSession : String) (store : Store)
    (tokens : TokenStore) (tok : String) (sess : Session) (stu : StudentOut)
    (tokens2 : TokenStore)
    (h : verifyToken now freshSession store tokens (some tok)
          = (.ok sess stu, tokens2)) :
    tok ≠ "" ∧ ∃ td st, storeGet tokens tok = some td
      ∧ ¬ td.expiresAt < now
      ∧ findStudent store td.email = some st
      ∧ sess = ⟨freshSession, now + SESSION_DURATION_MS⟩
      ∧ stu = studentOut st
      ∧ tokens2 = storeDelete tokens tok := by
  unfold verifyToken at h
  simp only [Option.getD_some] at h
  by_cases h0 : tok = ""
  · rw [if_pos h0] at h
    simp at h
  · rw [if_neg h0] at h
    refine ⟨h0, ?_⟩
    cases hget : storeGet tokens tok with
    | none =>
      rw [hget] at h
      simp at h
    | some td =>
      rw [hget] at h
      dsimp only at h
      by_cases hexp : td.expiresAt < now
      · rw [if_pos hexp] at h
        simp at h
      · rw [if_neg hexp] at h
        cases hfind : findStudent store td.email with
        | none =>
          rw [hfind] at h
          simp at h
        | some st =>
          rw [hfind] at h
          dsimp only at h
          injection h with h1 h2
          injection h1 with hs hst
          exact ⟨td, st, rfl, hexp, hfind, hs.symm, hst.symm, h2.symm⟩

/-- C1: one-time use — after a successful redemption of a token, any
second verify call with the same token yields `Unauthorized`, for any
later clock value (in particular one still inside the original
15-minute expiry window), any fresh session token and any record-store
state. -/
theorem C1_redeem_at_most_once (now : Nat) (freshSession : String)
    (store : Store) (tokens : TokenStore) (tok : String) (sess : Session)
    (stu : StudentOut) (tokens2 : TokenStore)
    (h : verifyToken now freshSession store tokens (some tok)
          = (.ok sess stu, tokens2)) :
    ∀ (now2 : Nat) (freshSession2 : String) (store2 : Store),
      (verifyToken now2 freshSession2 store2 tokens2 (some tok)).1
        = .unauthorized := by
  obtain ⟨hne, td, st, hget, hexp, hfind, hsess, hstu, htokens2⟩ :=
    verifyToken_ok_inv now freshSession store tokens tok sess stu tokens2 h
  intro now2 fresh2 store2
  subst htokens2
  unfold verifyToken
  simp only [Option.getD_some]
  rw [if_neg hne, storeGet_delete_self]

/-- Witness for C1: a concrete token is redeemed successfully at time
100, and the second attempt at the same time 100 — well inside the
expiry window 200 — yields `Unauthorized`. -/
theorem C1_redeem_at_most_once_witness :
    (verifyToken 100 "s2" sampleStore
      (verifyToken 100 "s1" sampleStore
        [("tok1", ⟨"jane@example.com", 200⟩)] (some "tok1")).2
      (some "tok1")).1 = .unauthorized :=
  C1_redeem_at_most_once 100 "s1" sampleStore
    [("tok1", ⟨"jane@example.com", 200⟩)] "tok1"
    ⟨"s1", 100 + SESSION_DURATION_MS⟩ (studentOut janeRec)
    (verifyToken 100 "s1" sampleStore
      [("tok1", ⟨"jane@example.com", 200⟩)] (some "tok1")).2
    (by decide) 100 "s2" sampleStore

/-- C2: a token issued at `t0` is stored with expiry
`t0 + 15 minutes`; redeeming it strictly after that instant fails
`Unauthorized`, and redeeming it strictly before succeeds, provided
the bound student still resolves. -/
theorem C2_token_ttl (t0 : Nat) (freshToken email : String) (store : Store)
    (tokens : TokenStore) (st : StudentRec)
    (hemail : email ≠ "") (htok : freshToken ≠ "")
    (hfind : findStudent store (normalizeEmail email) = some st) :
    requestMagicLink t0 freshToken store tokens (some email)
      = (.ok freshToken (normalizeEmail email) (t0 + MAGIC_LINK_TTL_MS),
         storeSet tokens freshToken
           ⟨normalizeEmail email, t0 + MAGIC_LINK_TTL_MS⟩)
    ∧ (∀ (t : Nat) (freshSession : String) (store2 : Store),
        t0 + MAGIC_LINK_TTL_MS < t →
        (verifyToken t freshSession store2
          (storeSet tokens freshToken
            ⟨normalizeEmail email, t0 + MAGIC_LINK_TTL_MS⟩)
          (some freshToken)).1 = .unauthorized)
    ∧ (∀ (t : Nat) (freshSession : String) (store2 : Store)
        (st2 : StudentRec),
        t < t0 + MAGIC_LINK_TTL_MS →
        findStudent store2 (normalizeEmail email) = some st2 →
        (verifyToken t freshSession store2
          (storeSet tokens freshToken
            ⟨normalizeEmail email, t0 + MAGIC_LINK_TTL_MS⟩)
          (some freshToken)).1
          = .ok ⟨freshSession, t + SESSION_DURATION_MS⟩ (studentOut st2)) := by
  refine ⟨?_, ?_, ?_⟩
  · unfold requestMagicLink
    simp only [Option.getD_some]
    rw [if_neg hemail, hfind]
  · intro t fresh store2 ht
    unfold verifyToken
    simp only [Option.getD_some]
    rw [if_neg htok, storeGet_set_self]
    dsimp only
    rw [if_pos ht]
  · intro t fresh store2 st2 ht hfind2
    unfold verifyToken
    simp only [Option.getD_some]
    rw [if_neg htok, storeGet_set_self]
    dsimp only
    rw [if_neg (show ¬ t0 + MAGIC_LINK_TTL_MS < t by omega), hfind2]

/-- Witness for C2: issuance at `t0 = 0` stores expiry at 15 minutes;
redemption at 15m + 1s fails `Unauthorized` and redemption at
14m59s succeeds. -/
theorem C2_token_ttl_witness :
    (verifyToken (MAGIC_LINK_TTL_MS + 1000) "s" sampleStore
      (storeSet [] "tokA" ⟨"jane@example.com", 0 + MAGIC_LINK_TTL_MS⟩)
      (some "tokA")).1 = .unauthorized
    ∧ (verifyToken (MAGIC_LINK_TTL_MS - 1000) "s" sampleStore
      (storeSet [] "tokA" ⟨"jane@example.com", 0 + MAGIC_LINK_TTL_MS⟩)
      (some "tokA")).1
      = .ok ⟨"s", (MAGIC_LINK_TTL_MS - 1000) + SESSION_DURATION_MS⟩
          (studentOut janeRec) := by
  have h := C2_token_ttl 0 "tokA" "jane@example.com" sampleStore [] janeRec
    (by decide) (by decide) (by decide)
  refine ⟨?_, ?_⟩
  · have := h.2.1 (MAGIC_LINK_TTL_MS + 1000) "s" sampleStore (by decide)
    simpa using this
  · have := h.2.2 (MAGIC_LINK_TTL_MS - 1000) "s" sampleStore janeRec
      (by decide) (by decide)
    simpa using this

/-- C8: redeeming a valid, unexpired token whose bound email no longer
resolves to a student yields `NotFound` (status 404, distinct from the
`Unauthorized`/401 of an invalid or expired token), and the token is
nonetheless consumed: the resulting token store is the one with the
token deleted, in which the token no longer resolves. -/
theorem C8_consumed_token_student_gone (now : Nat) (freshSession : String)
    (store : Store) (tokens : TokenStore) (tok : String) (td : TokenData)
    (htok : tok ≠ "") (hget : storeGet tokens tok = some td)
    (hexp : ¬ td.expiresAt < now)
    (hmiss : findStudent store td.email = none) :
    verifyToken now freshSession store tokens (some tok)
      = (.notFound, storeDelete tokens tok)
    ∧ storeGet (storeDelete tokens tok) tok = none
    ∧ verifyStatus .notFound = 404
    ∧ verifyStatus .unauthorized = 401
    ∧ VerifyResult.notFound ≠ VerifyResult.unauthorized := by
  refine ⟨?_, storeGet_delete_self tokens tok, rfl, rfl, by simp⟩
  unfold verifyToken
  simp only [Option.getD_some]
  rw [if_neg htok, hget]
  dsimp only
  rw [if_neg hexp, hmiss]

/-- Witness for C8: a valid token bound to an email that is not in the
store redeems to `NotFound` and is consumed. -/
theorem C8_consumed_token_student_gone_witness :
    verifyToken 100 "s" sampleStore
      [("tok1", ⟨"gone@example.com", 200⟩)] (some "tok1")
      = (.notFound, storeDelete [("tok1", ⟨"gone@example.com", 200⟩)] "tok1")
    ∧ storeGet (storeDelete [("tok1", ⟨"gone@example.com", 200⟩)] "tok1")
        "tok1" = none :=
  ⟨(C8_consumed_token_student_gone 100 "s" sampleStore
      [("tok1", ⟨"gone@example.com", 200⟩)] "tok1" ⟨"gone@example.com", 200⟩
      (by decide) (by decide) (by decide) (by decide)).1,
   (C8_consumed_token_student_gone 100 "s" sampleStore
      [("tok1", ⟨"gone@example.com", 200⟩)] "tok1" ⟨"gone@example.com", 200⟩
      (by decide) (by decide) (by decide) (by decide)).2.1⟩

/-- C9: `SESSION_DURATION_MS` is six 30-day months in milliseconds,
and every session minted at time `now` — by token verification or by
the dev-login path — expires at `now + SESSION_DURATION_MS`. -/
theorem C9_session_six_months :
    SESSION_DURATION_MS = 6 * (30 * 24 * 60 * 60 * 1000)
    ∧ (∀ (now : Nat) (freshSession : String) (store : Store)
        (tokens : TokenStore) (tok : String) (sess : Session)
        (stu : StudentOut) (tokens2 : TokenStore),
        verifyToken now freshSession store tokens (some tok)
          = (.ok sess stu, tokens2) →
        sess.expiresAt = now + SESSION_DURATION_MS)
    ∧ (∀ (devMode devTestEmail : Option String) (now : Nat)
        (freshSession : String) (store : Store) (emailBody : Option String)
        (sess : Session) (stu : StudentOut),
        devLogin devMode devTestEmail now freshSession store emailBody
          = .ok sess stu →
        sess.expiresAt = now + SESSION_DURATION_MS) := by
  refine ⟨by norm_num [SESSION_DURATION_MS], ?_, ?_⟩
  · intro now fresh store tokens tok sess stu tokens2 h
    obtain ⟨_, td, st, _, _, _, hsess, _, _⟩ :=
      verifyToken_ok_inv now fresh store tokens tok sess stu tokens2 h
    rw [hsess]
  · intro dm dte now fresh store eb sess stu h
    unfold devLogin at h
    by_cases hdm : dm ≠ some "true"
    · rw [if_pos hdm] at h
      simp at h
    · rw [if_neg hdm] at h
      simp only [] at h
      cases hfind : findStudent store
          (normalizeEmail (strOr (eb.getD "")
            (strOr (dte.getD "") "test@example.com"))) with
      | none =>
        rw [hfind] at h
        simp at h
      | some st2 =>
        rw [hfind] at h
        dsimp only at h
        injection h with h1 h2
        rw [← h1]

/-- Witness for C9: a concrete verification at time 100 and a concrete
dev-login at time 7 both mint sessions expiring exactly
`SESSION_DURATION_MS` later. -/
theorem C9_session_six_months_witness :
    (Session.mk "s" (100 + SESSION_DURATION_MS)).expiresAt
      = 100 + SESSION_DURATION_MS
    ∧ (Session.mk "d" (7 + SESSION_DURATION_MS)).expiresAt
      = 7 + SESSION_DURATION_MS :=
  ⟨C9_session_six_months.2.1 100 "s" sampleStore
      [("tok1", ⟨"jane@example.com", 200⟩)] "tok1"
      ⟨"s", 100 + SESSION_DURATION_MS⟩ (studentOut janeRec)
      (storeDelete [("tok1", ⟨"jane@example.com", 200⟩)] "tok1") (by decide),
   C9_session_six_months.2.2 (some "true") none 7 "d" sampleStore
      (some "jane@example.com") ⟨"d", 7 + SESSION_DURATION_MS⟩
      (studentOut janeRec) (by decide)⟩


/-- C7: an update request touching both allow-listed and
non-allow-listed fields persists only the allow-listed ones — the
patch sent to the record store mentions only allow-listed keys, every
non-allow-listed field of the stored record is unchanged by the patch,
and the response is exactly the re-hydration of the record patched
with that filtered patch. -/
theorem C7_update_allowlist_only (store : Store) (email : String)
    (updates : List (String × JVal)) (r : StudentRec)
    (hemail : email ≠ "")
    (hfind : findStudent store (normalizeEmail email) = some r) :
    updateStudent store (some email) (some updates)
      = .ok (filterUpdates updates)
          (hydrateStudent store
            ⟨r.id, applyUpdates r.fields (filterUpdates updates)⟩)
    ∧ (∀ kv ∈ filterUpdates updates, kv.1 ∈ allowedFields)
    ∧ (∀ f, f ∉ allowedFields →
        getField (applyUpdates r.fields (filterUpdates updates)) f
          = getField r.fields f) := by
  refine ⟨?_, ?_, ?_⟩
  · unfold updateStudent
    simp only [Option.getD_some]
    rw [if_neg hemail]
    rw [hfind]
  · intro kv hkv
    exact (filterUpdates_spec updates kv hkv).1
  · intro f hf
    apply getField_applyUpdates_not_mem
    intro kv hkv e
    apply hf
    rw [← e]
    exact (filterUpdates_spec updates kv hkv).1

/-- Witness for C7: an update with the allow-listed field `GPA` and
the non-allow-listed field `Name` persists only `GPA`, and `Name` on
the record is untouched by the patch. -/
theorem C7_update_allowlist_only_witness :
    updateStudent sampleStore (some "jane@example.com")
      (some [("GPA", .str "3.9"), ("Name", .str "Impostor")])
      = .ok (filterUpdates [("GPA", .str "3.9"), ("Name", .str "Impostor")])
          (hydrateStudent sampleStore
            ⟨janeRec.id,
             applyUpdates janeRec.fields
               (filterUpdates
                 [("GPA", .str "3.9"), ("Name", .str "Impostor")])⟩)
    ∧ getField
        (applyUpdates janeRec.fields
          (filterUpdates [("GPA", .str "3.9"), ("Name", .str "Impostor")]))
        "Name"
      = getField janeRec.fields "Name" :=
  ⟨(C7_update_allowlist_only sampleStore "jane@example.com"
      [("GPA", .str "3.9"), ("Name", .str "Impostor")] janeRec
      (by decide) (by decide)).1,
   (C7_update_allowlist_only sampleStore "jane@example.com"
      [("GPA", .str "3.9"), ("Name", .str "Impostor")] janeRec
      (by decide) (by decide)).2.2 "Name" (by decide)⟩

/-- C10: an allow-listed field supplied as `null` or `undefined` is
dropped from the persisted patch — the field keeps its stored value —
while an allow-listed field supplied as the empty string is passed
through to the store. -/
theorem C10_null_dropped_empty_kept (updates : List (String × JVal))
    (f : String) (hf : f ∈ allowedFields) :
    ((getField updates f = some JVal.null
        ∨ getField updates f = some JVal.undefined) →
      (∀ kv ∈ filterUpdates updates, kv.1 ≠ f)
      ∧ (∀ fields, getField (applyUpdates fields (filterUpdates updates)) f
            = getField fields f))
    ∧ (getField updates f = some (JVal.str "") →
        (f, JVal.str "") ∈ filterUpdates updates) := by
  constructor
  · intro hnull
    have hkey : ∀ kv ∈ filterUpdates updates, kv.1 ≠ f := by
      intro kv hkv e
      obtain ⟨_, hg, h1, h2⟩ := filterUpdates_spec updates kv hkv
      rw [e] at hg
      cases hnull with
      | inl hn =>
        rw [hn] at hg
        exact h1 (Option.some_injective _ hg.symm)
      | inr hn =>
        rw [hn] at hg
        exact h2 (Option.some_injective _ hg.symm)
    exact ⟨hkey, fun fields =>
      getField_applyUpdates_not_mem (filterUpdates updates) fields f hkey⟩
  · intro hg
    exact filterUpdates_mem_of updates f (JVal.str "") hf hg
      (by simp) (by simp)

/-- Witness for C10: `GPA` supplied as `null` leaves the record field
unchanged, while `CV/Resume` supplied as `""` appears in the patch. -/
theorem C10_null_dropped_empty_kept_witness :
    getField
      (applyUpdates janeRec.fields
        (filterUpdates [("GPA", JVal.null), ("CV/Resume", .str "")]))
      "GPA"
      = getField janeRec.fields "GPA"
    ∧ ("CV/Resume", JVal.str "")
        ∈ filterUpdates [("GPA", JVal.null), ("CV/Resume", .str "")] :=
  ⟨((C10_null_dropped_empty_kept
      [("GPA", JVal.null), ("CV/Resume", .str "")] "GPA" (by decide)).1
      (Or.inl (by decide))).2 janeRec.fields,
   (C10_null_dropped_empty_kept
      [("GPA", JVal.null), ("CV/Resume", .str "")] "CV/Resume"
      (by decide)).2 (by decide)⟩

/-- C3 as stated is false on the code: the `GET /student/:email`
lookup (`getStudentByEmail`) passes the raw email through, so the two
spellings of the same address resolve differently there — with a store
holding a student whose email field is `jane@example.com`, the raw
input with different case and a trailing space finds nothing while the
normalised spelling finds the record. -/
theorem C3_counterexample_student_fetch :
    getStudentByEmail sampleStore "Jane@Example.com " = none
    ∧ (getStudentByEmail sampleStore "jane@example.com").isSome = true
    ∧ fetchStudent sampleStore "Jane@Example.com " = .notFound := by
  refine ⟨by decide, by decide, by decide⟩

/-- C3 (amended): magic-link issuance, dev-login and student update
lowercase and trim the email before the lookup — two inputs with the
same normalisation behave identically on those operations (and the two
spellings of the scenario normalise identically) — but the direct
student fetch uses the raw email, so the property does not extend to
it. -/
theorem C3_normalized_lookups (e e2 : String)
    (he : e ≠ "") (he2 : e2 ≠ "")
    (hnorm : normalizeEmail e = normalizeEmail e2) :
    (∀ (now : Nat) (freshToken : String) (store : Store)
        (tokens : TokenStore),
        requestMagicLink now freshToken store tokens (some e)
          = requestMagicLink now freshToken store tokens (some e2))
    ∧ (∀ (devTestEmail : Option String) (now : Nat) (freshSession : String)
        (store : Store),
        devLogin (some "true") devTestEmail now freshSession store (some e)
          = devLogin (some "true") devTestEmail now freshSession store
              (some e2))
    ∧ (∀ (store : Store) (upd : Option (List (String × JVal))),
        updateStudent store (some e) upd = updateStudent store (some e2) upd)
    ∧ normalizeEmail "Jane@Example.com " = normalizeEmail "jane@example.com" := by
  refine ⟨?_, ?_, ?_, by decide⟩
  · intro now freshToken store tokens
    unfold requestMagicLink
    simp only [Option.getD_some]
    rw [if_neg he, if_neg he2, hnorm]
  · intro dte now fresh store
    unfold devLogin
    simp only [Option.getD_some]
    unfold strOr
    rw [if_neg he, if_neg he2, hnorm]
  · intro store upd
    unfold updateStudent
    simp only [Option.getD_some]
    rw [if_neg he, if_neg he2]
    cases upd with
    | none => rfl
    | some updates =>
      dsimp only
      rw [hnorm]

/-- Witness for the amended C3 at the scenario inputs: the two
spellings behave identically on the magic-link operation. -/
theorem C3_normalized_lookups_witness :
    requestMagicLink 7 "tokA" sampleStore [] (some "Jane@Example.com ")
      = requestMagicLink 7 "tokA" sampleStore [] (some "jane@example.com") :=
  (C3_normalized_lookups "Jane@Example.com " "jane@example.com"
    (by decide) (by decide) (by decide)).1 7 "tokA" sampleStore []

end WsgPortal
